import Mathlib

/-!
Shallow embedding of src/mains.py, a G2 review scraper.

The program fetches paginated review records for a list of companies from an
HTTP API, filters them to an inclusive date window, and writes one JSON file
per company.  The network is modelled as an environment function from
pagination offsets to HTTP responses (the auth token and company slug are
query parameters that determine the response, so they are folded into that
function); JSON parsing and the external dateutil isoparse routine are
modelled at their result boundary (an Option is none exactly when the parse
fails).  Machine-level side effects (prints, directory creation, file writes,
network fetches) are recorded as an explicit event trace.
-/

/-- Calendar date, modelling a Python date value (fields of a valid date:
1 ≤ month ≤ 12, 1 ≤ day ≤ 31). -/
structure PyDate where
  year : Nat
  month : Nat
  day : Nat
deriving DecidableEq

/-- Gregorian day number of a civil date, up to a constant offset (the
standard days-from-civil algorithm without the epoch shift).  For valid
dates it is strictly monotone in calendar order, so comparing these numbers
models the chronological comparison Python performs on date and datetime
values. -/
def civilDays (y m d : Nat) : Nat :=
  let yp := if m ≤ 2 then y - 1 else y
  let era := yp / 400
  let yoe := yp % 400
  let mp := if 2 < m then m - 3 else m + 9
  let doy := (153 * mp + 2) / 5 + (d - 1)
  let doe := yoe * 365 + yoe / 4 - yoe / 100 + doy
  era * 146097 + doe

/-- Chronological key of a date. -/
def PyDate.key (d : PyDate) : Nat := civilDays d.year d.month d.day

/-- Python date comparison a < b. -/
def pyLt (a b : PyDate) : Bool := decide (a.key < b.key)

/-- Two-digit zero padding, as in Python strftime and isoformat. -/
def pad2 (n : Nat) : String := if n < 10 then "0" ++ toString n else toString n

/-- Four-digit zero padding, as in Python strftime and isoformat. -/
def pad4 (n : Nat) : String :=
  if n < 10 then "000" ++ toString n
  else if n < 100 then "00" ++ toString n
  else if n < 1000 then "0" ++ toString n
  else toString n

/-- Python date.isoformat: YYYY-MM-DD. -/
def PyDate.isoformat (d : PyDate) : String :=
  pad4 d.year ++ "-" ++ pad2 d.month ++ "-" ++ pad2 d.day

/-- A Python datetime value: naive when tz is none, timezone-aware when tz
holds the UTC offset in minutes. -/
structure PyDateTime where
  year : Nat
  month : Nat
  day : Nat
  hour : Nat
  minute : Nat
  second : Nat
  tz : Option Int
deriving DecidableEq

/-- Seconds key of the naive (wall-clock) part of a datetime; for valid
field values it is strictly monotone in chronological order, so Python
comparison of two naive datetimes is comparison of these keys. -/
def PyDateTime.naiveSeconds (t : PyDateTime) : Nat :=
  civilDays t.year t.month t.day * 86400 + t.hour * 3600 + t.minute * 60 + t.second

/-- UTC instant of an aware datetime whose offset is the given number of
minutes: Python compares aware datetimes by their UTC instants. -/
def PyDateTime.instant (t : PyDateTime) (off : Int) : Int :=
  (t.naiveSeconds : Int) - 60 * off

/-- Python datetime comparison a < b.  Comparing a naive datetime with an
aware one raises TypeError, modelled as the error result. -/
def dtLt (a b : PyDateTime) : Except Unit Bool :=
  match a.tz, b.tz with
  | none, none => .ok (decide (a.naiveSeconds < b.naiveSeconds))
  | some ta, some tb => .ok (decide (a.instant ta < b.instant tb))
  | _, _ => .error ()

/-- Python datetime comparison a ≤ b, with the same TypeError behaviour as
dtLt on mixed naive and aware operands. -/
def dtLe (a b : PyDateTime) : Except Unit Bool :=
  match a.tz, b.tz with
  | none, none => .ok (decide (a.naiveSeconds ≤ b.naiveSeconds))
  | some ta, some tb => .ok (decide (a.instant ta ≤ b.instant tb))
  | _, _ => .error ()

/-- Calendar date of a datetime (Python datetime.date()). -/
def PyDateTime.dateOf (t : PyDateTime) : PyDate := ⟨t.year, t.month, t.day⟩

/-- Python strftime with format %Y-%m-%d. -/
def PyDateTime.strftimeYMD (t : PyDateTime) : String :=
  pad4 t.year ++ "-" ++ pad2 t.month ++ "-" ++ pad2 t.day

/-- datetime.fromisoformat applied to a date.isoformat string: midnight of
that day, naive. -/
def dateMidnight (d : PyDate) : PyDateTime := ⟨d.year, d.month, d.day, 0, 0, 0, none⟩

/-- Raw review record as decoded from the JSON body.  The datetimeField is
the result of isoparse on the datetime entry: none models a missing or
unparseable timestamp (the only case the per-record try/except skips);
the other fields are absent (none) or present strings, read with
r.get(key, "") in the source. -/
structure RawReview where
  datetimeField : Option PyDateTime
  title : Option String
  text : Option String
  reviewer : Option String
  rating : Option String
deriving DecidableEq

/-- HTTP response to one paginated request: status code, raw body text
(used in the diagnostic log), and the reviews array of the parsed JSON body
(none when the key is absent, in which case the source defaults to []). -/
structure HttpResponse where
  statusCode : Nat
  body : String
  reviews : Option (List RawReview)
deriving DecidableEq

/-- fetch_g2_reviews from src/mains.py, lines 11 to 26: one paginated
request.  Returns the diagnostic log line (some on non-200 status, none on
success) and the list of raw records, truncated to batch_size (the source
default is 50, which every call site here passes explicitly).  The HTTP GET
itself is modelled by the resp argument, the response the environment
produces for this company, token and offset. -/
def fetch_g2_reviews (company : String) (resp : HttpResponse) (batch_size : Nat) :
    Option String × List RawReview :=
  if resp.statusCode ≠ 200 then
    (some ("API Error for " ++ company ++ ": " ++ toString resp.statusCode ++ " " ++ resp.body), [])
  else
    (none, (resp.reviews.getD []).take batch_size)

/-- Normalized review record, the output unit built in the collector loop. -/
structure NormReview where
  source : String
  company : String
  title : String
  review : String
  reviewer : String
  rating : String
  date : String
deriving DecidableEq

/-- Construction of the normalized record appended at src/mains.py lines 58
to 66. -/
def normalizeReview (company : String) (r : RawReview) (review_date : PyDateTime) : NormReview :=
  { source := "g2"
    company := company
    title := r.title.getD ""
    review := r.text.getD ""
    reviewer := r.reviewer.getD ""
    rating := r.rating.getD ""
    date := review_date.strftimeYMD }

/-- Outcome of processing the records of one fetched page: continue to the
next page with the new accumulator, return the accumulator from the whole
collection (early termination at a record older than the window start), or
an uncaught TypeError from comparing an aware datetime with a naive one. -/
inductive PageResult where
  | next (acc : List NormReview)
  | finished (acc : List NormReview)
  | tzError
deriving DecidableEq

/-- The per-record for-loop of fetch_reviews_in_date_range, src/mains.py
lines 47 to 66: skip records whose timestamp does not parse, return early
when a record is dated strictly before start_date, append a normalized
record when the datetime lies in the window, drop it otherwise.  The
comparisons are evaluated in source order (the chained comparison
start_date <= review_date <= end_date short-circuits). -/
def processPage (sd ed : PyDateTime) (company : String) :
    List RawReview → List NormReview → PageResult
  | [], acc => .next acc
  | r :: rest, acc =>
    match r.datetimeField with
    | none => processPage sd ed company rest acc
    | some review_date =>
      match dtLt review_date sd with
      | .error _ => .tzError
      | .ok true => .finished acc
      | .ok false =>
        match dtLe sd review_date with
        | .error _ => .tzError
        | .ok false => processPage sd ed company rest acc
        | .ok true =>
          match dtLe review_date ed with
          | .error _ => .tzError
          | .ok false => processPage sd ed company rest acc
          | .ok true => processPage sd ed company rest (acc ++ [normalizeReview company r review_date])

/-- Result of the collection loop: the final accumulator, an uncaught
TypeError, or fuel exhaustion (the source loop is while True and need not
terminate; fuel bounds the number of iterations modelled). -/
inductive CollectRes where
  | done (reviews : List NormReview)
  | typeError
  | outOfFuel
deriving DecidableEq

/-- The while loop of fetch_reviews_in_date_range, src/mains.py lines 41 to
68: fetch a page at the current offset, stop on an empty page, process its
records, advance the offset by the number of records fetched.  Besides the
result it returns the list of offsets actually requested, in order. -/
def collectLoop (api : Nat → HttpResponse) (company : String) (sd ed : PyDateTime) :
    Nat → Nat → List NormReview → CollectRes × List Nat
  | 0, _, _ => (.outOfFuel, [])
  | fuel + 1, offset, acc =>
    let reviews := (fetch_g2_reviews company (api offset) 50).2
    if reviews.isEmpty then (.done acc, [offset])
    else
      match processPage sd ed company reviews acc with
      | .tzError => (.typeError, [offset])
      | .finished acc1 => (.done acc1, [offset])
      | .next acc1 =>
        let r := collectLoop api company sd ed fuel (offset + reviews.length) acc1
        (r.1, offset :: r.2)

/-- fetch_reviews_in_date_range from src/mains.py, lines 32 to 70.  The
start and end strings main passes are date.isoformat values, so
datetime.fromisoformat yields the naive midnight datetimes of the two
dates; the loop starts at offset 0 with an empty accumulator. -/
def fetch_reviews_in_date_range (api : Nat → HttpResponse) (company : String)
    (start_d end_d : PyDate) (fuel : Nat) : CollectRes × List Nat :=
  collectLoop api company (dateMidnight start_d) (dateMidnight end_d) fuel 0 []

/-- Observable side effect of one run: a line printed to standard output, a
network fetch for a company at a pagination offset, a directory creation,
or a file write. -/
inductive Event where
  | print (msg : String)
  | fetch (company : String) (offset : Nat)
  | mkdir (dir : String)
  | write (path : String) (content : List NormReview)
deriving DecidableEq

/-- save_reviews from src/mains.py, lines 76 to 83, as its event trace:
create the output directory, write the JSON file, print the summary line. -/
def save_reviews (company : String) (revs : List NormReview) : List Event :=
  [Event.mkdir "output",
   Event.write ("output/" ++ company ++ "_g2_reviews.json") revs,
   Event.print ("Saved " ++ toString revs.length ++ " reviews to output/"
     ++ company ++ "_g2_reviews.json")]

/-- Event trace of the fetches at the given offsets: each fetch, followed by
the diagnostic line fetch_g2_reviews prints when the response status is not
200. -/
def fetchEvents (api : Nat → HttpResponse) (company : String) : List Nat → List Event
  | [] => []
  | off :: rest =>
    Event.fetch company off ::
      (match (fetch_g2_reviews company (api off) 50).1 with
       | some m => [Event.print m]
       | none => []) ++ fetchEvents api company rest

/-- One iteration of the per-company loop of main, src/mains.py lines 120
to 131: run the collector for the company (which first prints its header
line, src/mains.py line 39), then either report that no reviews were found
or save them. -/
def runCompany (api : Nat → HttpResponse) (company : String) (sd ed : PyDate)
    (fuel : Nat) : CollectRes × List Event :=
  let r := fetch_reviews_in_date_range api company sd ed fuel
  let header := Event.print ("\nFetching reviews for " ++ company ++ " from "
    ++ sd.isoformat ++ " to " ++ ed.isoformat ++ "...")
  let tail :=
    match r.1 with
    | CollectRes.done revs =>
      if revs.isEmpty then
        [Event.print ("No reviews found for " ++ company ++ " in this date range.")]
      else save_reviews company revs
    | _ => []
  (r.1, header :: fetchEvents api company r.2 ++ tail)

/-- How one run of main ends: an uncaught ValueError from parsing a date
input, a validation abort (future start date, or start after end), an
uncaught TypeError from a datetime comparison in the collector, fuel
exhaustion (modelling a collector loop that never terminates), or normal
completion. -/
inductive MainOutcome where
  | valueError
  | futureStartAbort
  | invertedRangeAbort
  | typeErrorAbort
  | fuelExhausted
  | finished
deriving DecidableEq

/-- The per-company loop of main followed by the final completion print,
src/mains.py lines 120 to 133.  An uncaught TypeError in the collector
aborts the whole run: later companies are not processed and the completion
line is not printed. -/
def runCompanies (api : String → Nat → HttpResponse) (sd ed : PyDate) (fuel : Nat) :
    List String → MainOutcome × List Event
  | [] => (.finished, [Event.print "\n✅ Done!"])
  | c :: rest =>
    let r := runCompany (api c) c sd ed fuel
    match r.1 with
    | CollectRes.typeError => (.typeErrorAbort, r.2)
    | CollectRes.outOfFuel => (.fuelExhausted, r.2)
    | CollectRes.done _ =>
      let r2 := runCompanies api sd ed fuel rest
      (r2.1, r.2 ++ r2.2)

/-- Python str.split on a comma separator: the (possibly empty) parts
between commas, in order; a string with n commas yields n + 1 parts. -/
def splitOnComma : List Char → List (List Char)
  | [] => [[]]
  | c :: rest =>
    if c = ',' then [] :: splitOnComma rest
    else
      match splitOnComma rest with
      | [] => [[c]]
      | p :: ps => (c :: p) :: ps

/-- Python str.strip with no argument: remove leading and trailing
whitespace characters. -/
def pyStrip (cs : List Char) : List Char :=
  ((cs.dropWhile Char.isWhitespace).reverse.dropWhile Char.isWhitespace).reverse

/-- Parsing of the company list input, src/mains.py line 91: split on
commas, strip each part, drop the empty ones. -/
def parseCompanies (s : String) : List String :=
  (((splitOnComma s.data).map (fun p => String.mk (pyStrip p)))).filter (fun c => c ≠ "")

/-- Interactive inputs of one run together with the current date.  The two
date inputs are the results of datetime.fromisoformat on the stripped
strings: none models an unparseable date string (ValueError). -/
structure MainInput where
  companiesInput : String
  startInput : Option PyDate
  endInput : Option PyDate
  today : PyDate

/-- main from src/mains.py, lines 89 to 133: parse the inputs, validate the
date window against today (abort on a future start date, clamp a future end
date to today with a warning, abort when the start is after the clamped
end), then process each company in order and print the completion line. -/
def mainRun (inp : MainInput) (api : String → Nat → HttpResponse) (fuel : Nat) :
    MainOutcome × List Event :=
  let companies := parseCompanies inp.companiesInput
  match inp.startInput with
  | none => (.valueError, [])
  | some start_date =>
    match inp.endInput with
    | none => (.valueError, [])
    | some end_date0 =>
      if pyLt inp.today start_date then
        (.futureStartAbort, [Event.print "❌ Start date cannot be in the future."])
      else
        let clamped := pyLt inp.today end_date0
        let end_date := if clamped then inp.today else end_date0
        let warnEvs :=
          if clamped then [Event.print "⚠ End date is in the future. Adjusting to today."]
          else []
        if pyLt end_date start_date then
          (.invertedRangeAbort, warnEvs ++ [Event.print "❌ Start date must be before end date."])
        else
          let r := runCompanies api start_date end_date fuel companies
          (r.1, warnEvs ++ r.2)

/-- Length of the (truncated) page the fetcher returns at an offset. -/
def pageLen (api : Nat → HttpResponse) (company : String) (off : Nat) : Nat :=
  ((fetch_g2_reviews company (api off) 50).2).length

/-- Check that each offset in the list is followed by that offset plus the
length of the page fetched there, the page being nonempty. -/
def offsetsChained (api : Nat → HttpResponse) (company : String) : List Nat → Bool
  | [] => true
  | [_] => true
  | x :: y :: rest =>
    decide (y = x + pageLen api company x) && decide (0 < pageLen api company x)
      && offsetsChained api company (y :: rest)

/-- Sample raw record carrying a given timestamp, used in concrete runs. -/
def sampleRaw (dt : PyDateTime) : RawReview :=
  ⟨some dt, some "Great", some "Body", some "Alice", some "5"⟩

/-- Successful response carrying the given records. -/
def okPage (rs : List RawReview) : HttpResponse := ⟨200, "", some rs⟩

/-- Environment serving one single-record page and then empty pages. -/
def oneRecordApi (r : RawReview) : Nat → HttpResponse :=
  fun off => if off = 0 then okPage [r] else okPage []

/-- Record timestamped on 2024-06-08 at 10:00, naive. -/
def recEndDay10h : RawReview := sampleRaw ⟨2024, 6, 8, 10, 0, 0, none⟩

/-- Records of the synthetic descending-date example: 2024-06-10,
2024-06-05 and 2024-05-01, all at midnight, naive. -/
def recJun10 : RawReview := sampleRaw ⟨2024, 6, 10, 0, 0, 0, none⟩

/-- Record timestamped 2024-06-05, naive midnight. -/
def recJun05 : RawReview := sampleRaw ⟨2024, 6, 5, 0, 0, 0, none⟩

/-- Record timestamped 2024-05-01, naive midnight. -/
def recMay01 : RawReview := sampleRaw ⟨2024, 5, 1, 0, 0, 0, none⟩

/-- Environment serving the three synthetic records on one page. -/
def apiDescending : Nat → HttpResponse :=
  fun off => if off = 0 then okPage [recJun10, recJun05, recMay01] else okPage []

/-- Record whose timestamp is timezone-aware (UTC offset 120 minutes). -/
def recAware : RawReview := sampleRaw ⟨2024, 6, 5, 10, 0, 0, some 120⟩

/-- Environment serving the single aware-timestamped record. -/
def apiAware : Nat → HttpResponse := oneRecordApi recAware

deriving instance DecidableEq for Except

/-- Processing a page that extends an already fully processed prefix
continues from the accumulator the prefix produced. -/
theorem processPage_append (sd ed : PyDateTime) (c : String) (l : List RawReview) :
    ∀ (pre : List RawReview) (acc acc1 : List NormReview),
      processPage sd ed c pre acc = .next acc1 →
      processPage sd ed c (pre ++ l) acc = processPage sd ed c l acc1 := by
  intro pre
  induction pre with
  | nil =>
    intro acc acc1 h
    simp only [processPage] at h
    cases h
    simp
  | cons r pre ih =>
    intro acc acc1 h
    simp only [List.cons_append, processPage] at h ⊢
    cases hdt : r.datetimeField with
    | none =>
      simp only [hdt] at h ⊢
      exact ih acc acc1 h
    | some dt =>
      simp only [hdt] at h ⊢
      cases hlt : dtLt dt sd with
      | error e => simp only [hlt] at h; cases h
      | ok b =>
        cases b with
        | true => simp only [hlt] at h; cases h
        | false =>
          simp only [hlt] at h ⊢
          cases hle1 : dtLe sd dt with
          | error e => simp only [hlt, hle1] at h; cases h
          | ok b1 =>
            cases b1 with
            | false =>
              simp only [hle1] at h ⊢
              exact ih acc acc1 h
            | true =>
              simp only [hle1] at h ⊢
              cases hle2 : dtLe dt ed with
              | error e => simp only [hlt, hle1, hle2] at h; cases h
              | ok b2 =>
                cases b2 with
                | false =>
                  simp only [hle2] at h ⊢
                  exact ih acc acc1 h
                | true =>
                  simp only [hle2] at h ⊢
                  exact ih _ acc1 h

/-- With nonzero fuel the loop fetches its current offset first. -/
theorem collectLoop_offsets_cons (api : Nat → HttpResponse) (c : String) (sd ed : PyDateTime)
    (fuel offset : Nat) (acc : List NormReview) :
    ∃ t, (collectLoop api c sd ed (fuel + 1) offset acc).2 = offset :: t := by
  simp only [collectLoop]
  split
  · exact ⟨[], rfl⟩
  · split
    · exact ⟨[], rfl⟩
    · exact ⟨[], rfl⟩
    · exact ⟨_, rfl⟩

/-- The offsets the loop fetches are chained: each subsequent offset is the
previous one plus the length of the nonempty page fetched there. -/
theorem collectLoop_chained (api : Nat → HttpResponse) (c : String) (sd ed : PyDateTime) :
    ∀ (fuel offset : Nat) (acc : List NormReview),
      offsetsChained api c (collectLoop api c sd ed fuel offset acc).2 = true := by
  intro fuel
  induction fuel with
  | zero => intro offset acc; rfl
  | succ fuel ih =>
    intro offset acc
    simp only [collectLoop]
    split
    · rfl
    · rename_i hemp
      split
      · rfl
      · rfl
      · rename_i acc1 hproc
        cases fuel with
        | zero => rfl
        | succ fuel1 =>
          obtain ⟨t, ht⟩ := collectLoop_offsets_cons api c sd ed fuel1
            (offset + ((fetch_g2_reviews c (api offset) 50).2).length) acc1
          have hrec := ih (offset + ((fetch_g2_reviews c (api offset) 50).2).length) acc1
          rw [ht] at hrec ⊢
          simp only [offsetsChained, Bool.and_eq_true, decide_eq_true_eq]
          refine ⟨⟨rfl, ?_⟩, hrec⟩
          have hne : (fetch_g2_reviews c (api offset) 50).2 ≠ [] := by
            intro hnil
            rw [hnil] at hemp
            exact hemp rfl
          exact List.length_pos.mpr hne

/-- The head of a chained offset list is below every later entry. -/
theorem offsetsChained_lt_all (api : Nat → HttpResponse) (c : String) :
    ∀ (l : List Nat) (x : Nat), offsetsChained api c (x :: l) = true → ∀ z ∈ l, x < z := by
  intro l
  induction l with
  | nil => intro x _ z hz; cases hz
  | cons y t ih =>
    intro x h z hz
    simp only [offsetsChained, Bool.and_eq_true, decide_eq_true_eq] at h
    obtain ⟨⟨hy, hpos⟩, hrest⟩ := h
    have hxy : x < y := by omega
    cases hz with
    | head => exact hxy
    | tail _ hz2 => exact lt_trans hxy (ih y hrest z hz2)

/-- A chained offset list is strictly increasing. -/
theorem offsetsChained_pairwise (api : Nat → HttpResponse) (c : String) :
    ∀ (l : List Nat), offsetsChained api c l = true → l.Pairwise (· < ·) := by
  intro l
  induction l with
  | nil => intro _; exact List.Pairwise.nil
  | cons x t ih =>
    intro h
    refine List.Pairwise.cons (offsetsChained_lt_all api c t x h) (ih ?_)
    cases t with
    | nil => rfl
    | cons y t2 =>
      simp only [offsetsChained, Bool.and_eq_true] at h
      exact h.2

/-- The per-company loop never produces a parse-error or validation-abort
outcome: those arise only before it runs. -/
theorem runCompanies_no_validation_abort (api : String → Nat → HttpResponse) (sd ed : PyDate)
    (fuel : Nat) : ∀ companies : List String,
    (runCompanies api sd ed fuel companies).1 ≠ .valueError ∧
    (runCompanies api sd ed fuel companies).1 ≠ .futureStartAbort ∧
    (runCompanies api sd ed fuel companies).1 ≠ .invertedRangeAbort := by
  intro companies
  induction companies with
  | nil => refine ⟨?_, ?_, ?_⟩ <;> simp [runCompanies]
  | cons c rest ih =>
    simp only [runCompanies]
    split
    · refine ⟨?_, ?_, ?_⟩ <;> simp
    · refine ⟨?_, ?_, ?_⟩ <;> simp
    · exact ih

/-- When every company collection completes normally, the per-company loop
reaches the completion line. -/
theorem runCompanies_all_done (api : String → Nat → HttpResponse) (sd ed : PyDate) (fuel : Nat) :
    ∀ companies : List String,
    (∀ c ∈ companies, ∃ revs, (fetch_reviews_in_date_range (api c) c sd ed fuel).1 = CollectRes.done revs) →
    (runCompanies api sd ed fuel companies).1 = .finished := by
  intro companies
  induction companies with
  | nil => intro _; rfl
  | cons c rest ih =>
    intro h
    obtain ⟨revs, hr⟩ := h c (List.mem_cons_self c rest)
    simp only [runCompanies, runCompany, hr]
    exact ih (fun c2 hc2 => h c2 (List.mem_cons_of_mem c hc2))

/-- Splitting a string of commas and whitespace yields whitespace-only
parts. -/
theorem splitOnComma_whitespace : ∀ cs : List Char,
    (∀ ch ∈ cs, ch = ',' ∨ ch.isWhitespace = true) →
    ∀ p ∈ splitOnComma cs, ∀ ch ∈ p, ch.isWhitespace = true := by
  intro cs
  induction cs with
  | nil =>
    intro _ p hp ch hch
    simp only [splitOnComma, List.mem_singleton] at hp
    subst hp
    cases hch
  | cons c0 rest ih =>
    intro h p hp ch hch
    have hrest : ∀ ch ∈ rest, ch = ',' ∨ ch.isWhitespace = true :=
      fun ch2 hch2 => h ch2 (List.mem_cons_of_mem c0 hch2)
    simp only [splitOnComma] at hp
    by_cases hc : c0 = ','
    · rw [if_pos hc] at hp
      cases hp with
      | head => cases hch
      | tail _ hp2 => exact ih hrest p hp2 ch hch
    · rw [if_neg hc] at hp
      have hw : c0.isWhitespace = true := (h c0 (List.mem_cons_self c0 rest)).resolve_left hc
      cases hsplit : splitOnComma rest with
      | nil =>
        rw [hsplit] at hp
        simp only [List.mem_singleton] at hp
        subst hp
        cases hch with
        | head => exact hw
        | tail _ hch2 => cases hch2
      | cons p0 ps =>
        rw [hsplit] at hp
        cases hp with
        | head =>
          cases hch with
          | head => exact hw
          | tail _ hch2 =>
            exact ih hrest p0 (hsplit ▸ List.mem_cons_self p0 ps) ch hch2
        | tail _ hp2 =>
          exact ih hrest p (hsplit ▸ List.mem_cons_of_mem p0 hp2) ch hch

/-- Stripping a whitespace-only part leaves nothing. -/
theorem pyStrip_of_whitespace (p : List Char) (h : ∀ ch ∈ p, ch.isWhitespace = true) :
    pyStrip p = [] := by
  unfold pyStrip
  rw [List.dropWhile_eq_nil_iff.mpr h]
  rfl

/-- A company input of only commas and whitespace parses to no companies. -/
theorem parseCompanies_of_whitespace (s : String)
    (h : ∀ ch ∈ s.data, ch = ',' ∨ ch.isWhitespace = true) :
    parseCompanies s = [] := by
  unfold parseCompanies
  rw [List.filter_eq_nil_iff]
  intro a ha
  simp only [List.mem_map] at ha
  obtain ⟨p, hp, hpa⟩ := ha
  have hps : pyStrip p = [] :=
    pyStrip_of_whitespace p (splitOnComma_whitespace s.data h p hp)
  rw [hps] at hpa
  subst hpa
  simp

/-- C1 counterexample: a record timestamped 2024-06-08 at 10:00 has calendar
date equal to the window end 2024-06-08 and is not strictly earlier than the
start 2024-06-01, yet the collector keeps nothing: the code compares the full
datetime against midnight of end_date, so the record falls outside the
window and is dropped. -/
theorem c1_end_day_afternoon_record_dropped :
    recEndDay10h.datetimeField = some ⟨2024, 6, 8, 10, 0, 0, none⟩ ∧
    (⟨2024, 6, 8, 10, 0, 0, none⟩ : PyDateTime).dateOf = (⟨2024, 6, 8⟩ : PyDate) ∧
    dtLt ⟨2024, 6, 8, 10, 0, 0, none⟩ (dateMidnight ⟨2024, 6, 1⟩) = .ok false ∧
    fetch_reviews_in_date_range (oneRecordApi recEndDay10h) "acme" ⟨2024, 6, 1⟩ ⟨2024, 6, 8⟩ 3 =
      (CollectRes.done [], [0, 1]) := by
  decide

/-- C1 (amended): a raw record whose timestamp parses to a naive datetime dt
with midnight of start_date ≤ dt ≤ midnight of end_date is normalized (date
formatted YYYY-MM-DD) and appended to the accumulator; records on the end
day with a later time of day fall outside this datetime window. -/
theorem c1_in_window_datetime_appended (sd ed : PyDateTime) (c : String) (r : RawReview)
    (rest : List RawReview) (acc : List NormReview) (dt : PyDateTime)
    (hdt : r.datetimeField = some dt) (htz : dt.tz = none) (hstz : sd.tz = none)
    (hetz : ed.tz = none) (hge : sd.naiveSeconds ≤ dt.naiveSeconds)
    (hle : dt.naiveSeconds ≤ ed.naiveSeconds) :
    processPage sd ed c (r :: rest) acc =
      processPage sd ed c rest (acc ++ [normalizeReview c r dt]) ∧
    (normalizeReview c r dt).date = pad4 dt.year ++ "-" ++ pad2 dt.month ++ "-" ++ pad2 dt.day := by
  have h1 : decide (dt.naiveSeconds < sd.naiveSeconds) = false :=
    decide_eq_false (Nat.not_lt.mpr hge)
  have h2 : decide (sd.naiveSeconds ≤ dt.naiveSeconds) = true := decide_eq_true hge
  have h3 : decide (dt.naiveSeconds ≤ ed.naiveSeconds) = true := decide_eq_true hle
  constructor
  · simp only [processPage, hdt, dtLt, dtLe, htz, hstz, hetz, h1, h2, h3]
  · rfl

/-- C1 witness: the 2024-06-05 record of the synthetic page is appended for
the window 2024-06-01 to 2024-06-08 with date string 2024-06-05. -/
theorem c1_witness :
    processPage (dateMidnight ⟨2024, 6, 1⟩) (dateMidnight ⟨2024, 6, 8⟩) "notion" [recJun05] [] =
      processPage (dateMidnight ⟨2024, 6, 1⟩) (dateMidnight ⟨2024, 6, 8⟩) "notion" []
        ([] ++ [normalizeReview "notion" recJun05 ⟨2024, 6, 5, 0, 0, 0, none⟩]) ∧
    (normalizeReview "notion" recJun05 ⟨2024, 6, 5, 0, 0, 0, none⟩).date = "2024-06-05" := by
  have h := c1_in_window_datetime_appended (dateMidnight ⟨2024, 6, 1⟩)
    (dateMidnight ⟨2024, 6, 8⟩) "notion" recJun05 [] [] ⟨2024, 6, 5, 0, 0, 0, none⟩
    rfl rfl rfl rfl (by decide) (by decide)
  exact ⟨h.1, h.2.trans (by decide)⟩

/-- C2: when a record of the fetched page is dated strictly before
start_date (every earlier record of the page having been processed into the
accumulator), the collector immediately returns that accumulator: the rest
of the page is not processed and no further offset is fetched. -/
theorem c2_early_return_stops_collection (api : Nat → HttpResponse) (c : String)
    (sd ed : PyDateTime) (fuel offset : Nat) (acc acc1 : List NormReview)
    (pre rest : List RawReview) (r : RawReview) (dt : PyDateTime)
    (hpage : (fetch_g2_reviews c (api offset) 50).2 = pre ++ r :: rest)
    (hpre : processPage sd ed c pre acc = .next acc1)
    (hdt : r.datetimeField = some dt)
    (hlt : dtLt dt sd = .ok true) :
    collectLoop api c sd ed (fuel + 1) offset acc = (.done acc1, [offset]) := by
  have hstep : processPage sd ed c (pre ++ r :: rest) acc = PageResult.finished acc1 := by
    rw [processPage_append sd ed c (r :: rest) pre acc acc1 hpre]
    simp only [processPage, hdt, hlt]
  have hfalse : (pre ++ r :: rest).isEmpty = false := by cases pre <;> rfl
  simp only [collectLoop, hpage, hfalse, hstep]
  simp

/-- C2 witness: on the synthetic page dated 2024-06-10, 2024-06-05,
2024-05-01 with window 2024-06-01 to 2024-06-08, the collector returns
exactly the 2024-06-05 record having fetched only offset 0. -/
theorem c2_witness :
    collectLoop apiDescending "notion" (dateMidnight ⟨2024, 6, 1⟩) (dateMidnight ⟨2024, 6, 8⟩)
      5 0 [] =
      (CollectRes.done [normalizeReview "notion" recJun05 ⟨2024, 6, 5, 0, 0, 0, none⟩], [0]) := by
  exact c2_early_return_stops_collection apiDescending "notion" (dateMidnight ⟨2024, 6, 1⟩)
    (dateMidnight ⟨2024, 6, 8⟩) 4 0 []
    [normalizeReview "notion" recJun05 ⟨2024, 6, 5, 0, 0, 0, none⟩]
    [recJun10, recJun05] [] recMay01 ⟨2024, 5, 1, 0, 0, 0, none⟩
    (by decide) (by decide) (by decide) (by decide)

/-- C3: the list of offsets the collector fetches is chained (each next
offset is the previous one plus the length of the page fetched there, that
page being nonempty) and strictly increasing, so the offset advances by the
number of records processed and no position is requested twice. -/
theorem c3_offsets_strictly_increase (api : Nat → HttpResponse) (c : String)
    (sd ed : PyDateTime) (fuel offset : Nat) (acc : List NormReview) :
    offsetsChained api c (collectLoop api c sd ed fuel offset acc).2 = true ∧
    ((collectLoop api c sd ed fuel offset acc).2).Pairwise (· < ·) :=
  ⟨collectLoop_chained api c sd ed fuel offset acc,
    offsetsChained_pairwise api c _ (collectLoop_chained api c sd ed fuel offset acc)⟩

/-- C4: when the supplied start date is strictly after the supplied end date
(before any clamping) and the start date is not after today, the run prints
the inverted-range message and terminates: no company is processed, no fetch
happens and no file is written (the whole event trace is that one print). -/
theorem c4_inverted_range_aborts (inp : MainInput) (api : String → Nat → HttpResponse)
    (fuel : Nat) (s e : PyDate)
    (hs : inp.startInput = some s) (he : inp.endInput = some e)
    (hinv : pyLt e s = true) (hnf : pyLt inp.today s = false) :
    mainRun inp api fuel =
      (.invertedRangeAbort, [Event.print "❌ Start date must be before end date."]) := by
  have h1 : e.key < s.key := of_decide_eq_true hinv
  have h2 : ¬ inp.today.key < s.key := of_decide_eq_false hnf
  have h3 : pyLt inp.today e = false := decide_eq_false (by omega)
  simp only [mainRun, hs, he, hnf, h3, hinv]
  simp [hinv]

/-- C4 witness: start 2024-06-05, end 2024-06-03, today 2024-06-10. -/
theorem c4_witness :
    mainRun ⟨"acme", some ⟨2024, 6, 5⟩, some ⟨2024, 6, 3⟩, ⟨2024, 6, 10⟩⟩
      (fun _ _ => okPage []) 7 =
      (.invertedRangeAbort, [Event.print "❌ Start date must be before end date."]) :=
  c4_inverted_range_aborts _ _ 7 ⟨2024, 6, 5⟩ ⟨2024, 6, 3⟩ rfl rfl (by decide) (by decide)

/-- C5: on any response whose status is not 200 the fetcher returns the
empty list together with a diagnostic naming the company, the status code
and the response body, as an ordinary return value rather than an error;
on a 200 response there is no diagnostic and at most batch_size records are
returned. -/
theorem c5_fetch_soft_failure_and_truncation (company : String) (resp : HttpResponse)
    (batch_size : Nat) :
    (resp.statusCode ≠ 200 →
      fetch_g2_reviews company resp batch_size =
        (some ("API Error for " ++ company ++ ": " ++ toString resp.statusCode ++ " "
          ++ resp.body), [])) ∧
    (resp.statusCode = 200 →
      (fetch_g2_reviews company resp batch_size).1 = none ∧
      ((fetch_g2_reviews company resp batch_size).2).length ≤ batch_size) := by
  constructor
  · intro h
    simp [fetch_g2_reviews, h]
  · intro h
    refine ⟨by simp [fetch_g2_reviews, h], ?_⟩
    simp [fetch_g2_reviews, h, List.length_take]

/-- C5 witness: a 500 response with body boom for company acme. -/
theorem c5_witness :
    fetch_g2_reviews "acme" ⟨500, "boom", none⟩ 50 =
      (some "API Error for acme: 500 boom", []) :=
  ((c5_fetch_soft_failure_and_truncation "acme" ⟨500, "boom", none⟩ 50).1
    (by decide)).trans (by decide)

/-- C6: a record whose naive timestamp is strictly later than midnight of
end_date, the window being valid (start at or before end), is dropped: it is
not appended and does not terminate the page loop, which continues with the
remaining records. -/
theorem c6_later_than_end_dropped (sd ed : PyDateTime) (c : String) (r : RawReview)
    (rest : List RawReview) (acc : List NormReview) (dt : PyDateTime)
    (hdt : r.datetimeField = some dt) (htz : dt.tz = none) (hstz : sd.tz = none)
    (hetz : ed.tz = none) (hwin : sd.naiveSeconds ≤ ed.naiveSeconds)
    (hgt : ed.naiveSeconds < dt.naiveSeconds) :
    processPage sd ed c (r :: rest) acc = processPage sd ed c rest acc := by
  have h1 : decide (dt.naiveSeconds < sd.naiveSeconds) = false :=
    decide_eq_false (by omega)
  have h2 : decide (sd.naiveSeconds ≤ dt.naiveSeconds) = true := decide_eq_true (by omega)
  have h3 : decide (dt.naiveSeconds ≤ ed.naiveSeconds) = false :=
    decide_eq_false (Nat.not_le.mpr hgt)
  simp only [processPage, hdt, dtLt, dtLe, htz, hstz, hetz, h1, h2, h3]

/-- C6 witness: the 2024-06-10 record is dropped for the window 2024-06-01
to 2024-06-08 and processing continues with the rest of the page. -/
theorem c6_witness :
    processPage (dateMidnight ⟨2024, 6, 1⟩) (dateMidnight ⟨2024, 6, 8⟩) "notion"
        [recJun10, recJun05] [] =
      processPage (dateMidnight ⟨2024, 6, 1⟩) (dateMidnight ⟨2024, 6, 8⟩) "notion"
        [recJun05] [] :=
  c6_later_than_end_dropped (dateMidnight ⟨2024, 6, 1⟩) (dateMidnight ⟨2024, 6, 8⟩) "notion"
    recJun10 [recJun05] [] ⟨2024, 6, 10, 0, 0, 0, none⟩ rfl rfl rfl rfl (by decide) (by decide)

/-- C7: when the supplied end date is strictly after today and the start
date is not after today, the end date is clamped to today and the warning is
printed, after which the run is exactly the per-company processing with the
clamped window: it cannot end in a validation abort or parse error, and when
every company collection completes normally the run finishes. -/
theorem c7_future_end_clamped_run_proceeds (inp : MainInput)
    (api : String → Nat → HttpResponse) (fuel : Nat) (s e : PyDate)
    (hs : inp.startInput = some s) (he : inp.endInput = some e)
    (hfut : pyLt inp.today e = true) (hnf : pyLt inp.today s = false) :
    mainRun inp api fuel =
      ((runCompanies api s inp.today fuel (parseCompanies inp.companiesInput)).1,
        Event.print "⚠ End date is in the future. Adjusting to today."
          :: (runCompanies api s inp.today fuel (parseCompanies inp.companiesInput)).2) ∧
    (mainRun inp api fuel).1 ≠ .valueError ∧
    (mainRun inp api fuel).1 ≠ .futureStartAbort ∧
    (mainRun inp api fuel).1 ≠ .invertedRangeAbort ∧
    ((∀ c ∈ parseCompanies inp.companiesInput,
        ∃ revs, (fetch_reviews_in_date_range (api c) c s inp.today fuel).1 = CollectRes.done revs) →
      (mainRun inp api fuel).1 = .finished) := by
  have heq : mainRun inp api fuel =
      ((runCompanies api s inp.today fuel (parseCompanies inp.companiesInput)).1,
        Event.print "⚠ End date is in the future. Adjusting to today."
          :: (runCompanies api s inp.today fuel (parseCompanies inp.companiesInput)).2) := by
    simp only [mainRun, hs, he, hnf, hfut]
    simp [hnf]
  have hno := runCompanies_no_validation_abort api s inp.today fuel
    (parseCompanies inp.companiesInput)
  refine ⟨heq, ?_, ?_, ?_, ?_⟩
  · rw [heq]; exact hno.1
  · rw [heq]; exact hno.2.1
  · rw [heq]; exact hno.2.2
  · intro hall
    rw [heq]
    exact runCompanies_all_done api s inp.today fuel _ hall

/-- C7 witness: end 2024-06-15 lies after today 2024-06-10, start 2024-06-01
does not; the synthetic descending page is collected and the run finishes. -/
theorem c7_witness :
    (mainRun ⟨"acme", some ⟨2024, 6, 1⟩, some ⟨2024, 6, 15⟩, ⟨2024, 6, 10⟩⟩
      (fun _ => apiDescending) 5).1 = .finished := by
  refine (c7_future_end_clamped_run_proceeds _ _ 5 ⟨2024, 6, 1⟩ ⟨2024, 6, 15⟩
    rfl rfl (by decide) (by decide)).2.2.2.2 ?_
  intro c hc
  have hc2 : c = "acme" := by
    have : parseCompanies "acme" = ["acme"] := by decide
    rw [show (⟨"acme", some ⟨2024, 6, 1⟩, some ⟨2024, 6, 15⟩, ⟨2024, 6, 10⟩⟩ :
      MainInput).companiesInput = "acme" from rfl, this] at hc
    simpa using hc
  subst hc2
  exact ⟨[normalizeReview "acme" recJun10 ⟨2024, 6, 10, 0, 0, 0, none⟩,
      normalizeReview "acme" recJun05 ⟨2024, 6, 5, 0, 0, 0, none⟩], by decide⟩

/-- C8: when either date input fails to parse, the run stops with the
uncaught ValueError: nothing is printed, no company is processed, no file is
written (the event trace is empty). -/
theorem c8_unparseable_date_stops_run (inp : MainInput) (api : String → Nat → HttpResponse)
    (fuel : Nat) (h : inp.startInput = none ∨ inp.endInput = none) :
    mainRun inp api fuel = (.valueError, []) := by
  cases h with
  | inl h1 => simp [mainRun, h1]
  | inr h2 =>
    cases hs : inp.startInput with
    | none => simp [mainRun, hs]
    | some s => simp [mainRun, hs, h2]

/-- C8 witness: unparseable start date input. -/
theorem c8_witness :
    mainRun ⟨"acme", none, some ⟨2024, 6, 8⟩, ⟨2024, 6, 10⟩⟩ (fun _ _ => okPage []) 3 =
      (.valueError, []) :=
  c8_unparseable_date_stops_run _ _ 3 (Or.inl rfl)

/-- C9: a record whose timestamp is a valid ISO-8601 datetime with a
timezone offset makes the collector raise on the comparison with the naive
start_date bound (only the parse is inside the try block): the collection
ends in the TypeError outcome rather than the record being filtered, kept or
skipped, and a run over that company aborts entirely. -/
theorem c9_aware_timestamp_raises :
    recAware.datetimeField = some ⟨2024, 6, 5, 10, 0, 0, some 120⟩ ∧
    dtLt ⟨2024, 6, 5, 10, 0, 0, some 120⟩ (dateMidnight ⟨2024, 6, 1⟩) = .error () ∧
    fetch_reviews_in_date_range apiAware "acme" ⟨2024, 6, 1⟩ ⟨2024, 6, 8⟩ 5 =
      (CollectRes.typeError, [0]) ∧
    (mainRun ⟨"acme", some ⟨2024, 6, 1⟩, some ⟨2024, 6, 8⟩, ⟨2024, 6, 9⟩⟩
      (fun _ => apiAware) 5).1 = MainOutcome.typeErrorAbort := by
  decide

/-- C10: when the company input consists only of commas and whitespace, the
parsed company list is empty; with the dates validating, the run performs no
fetch, writes no file and prints no per-company line: the trace is at most
the clamp warning followed by the completion line. -/
theorem c10_blank_company_list_no_work (inp : MainInput) (api : String → Nat → HttpResponse)
    (fuel : Nat) (s e : PyDate)
    (hs : inp.startInput = some s) (he : inp.endInput = some e)
    (hws : ∀ ch ∈ inp.companiesInput.data, ch = ',' ∨ ch.isWhitespace = true)
    (hnf : pyLt inp.today s = false)
    (hval : pyLt (if pyLt inp.today e then inp.today else e) s = false) :
    parseCompanies inp.companiesInput = [] ∧
    mainRun inp api fuel =
      (.finished,
        (if pyLt inp.today e then
          [Event.print "⚠ End date is in the future. Adjusting to today."] else [])
          ++ [Event.print "\n✅ Done!"]) := by
  have hpc := parseCompanies_of_whitespace inp.companiesInput hws
  refine ⟨hpc, ?_⟩
  cases hc : pyLt inp.today e with
  | false =>
    rw [hc] at hval
    simp only [if_neg Bool.false_ne_true] at hval ⊢
    simp only [mainRun, hs, he, hnf, hc, hval, hpc]
    simp [runCompanies, hval]
  | true =>
    rw [hc] at hval
    simp only [if_pos rfl] at hval ⊢
    simp only [mainRun, hs, he, hnf, hc, hval, hpc]
    simp [runCompanies, hval]

/-- C10 witness: company input of commas and blanks with a valid window. -/
theorem c10_witness :
    parseCompanies " ,, " = [] ∧
    mainRun ⟨" ,, ", some ⟨2024, 6, 1⟩, some ⟨2024, 6, 8⟩, ⟨2024, 6, 10⟩⟩
      (fun _ _ => okPage []) 4 = (.finished, [Event.print "\n✅ Done!"]) := by
  have h := c10_blank_company_list_no_work
    ⟨" ,, ", some ⟨2024, 6, 1⟩, some ⟨2024, 6, 8⟩, ⟨2024, 6, 10⟩⟩
    (fun _ _ => okPage []) 4 ⟨2024, 6, 1⟩ ⟨2024, 6, 8⟩ rfl rfl (by decide) (by decide) (by decide)
  exact ⟨h.1, h.2.trans (by decide)⟩
